import Mathlib

/-!
Shallow embedding of the hierarchical-checklist CLI
(`hierarchical_checklists/cli/checklist_utils.py`).

Modelling conventions:
* Markdown documents are lists of structured lines (`DocLine`).  Each
  syntactic shape the Python code scans for with a regular expression is
  represented by its own constructor: checklist boxes `- [ ] item` /
  `- [x] item`, second-level headers `## title`, the status markers
  `**Status:** In Progress` (open box glyph) and `**Status:** Complete`
  (check glyph), dated scratchpad notes (question-mark and warning
  entries), and self-referential child links `[ref](./ref)`.  Free prose
  is carried by the `text` constructor and is assumed not to embed one of
  those multi-character line shapes (the question-mark glyph, a single
  character, is still searched inside prose, as the Python code does).
* The process-wide file system state (lock file, current-step pointer,
  both bootstrap trees, step documents, scratchpad files, hash ledger,
  expected-output store) is a `SysState` record; external collaborators
  (shell exit codes, git cleanliness, the standalone validation script,
  a push failure) are environment fields of the same record.
* SHA-256 is abstracted as a parameter `hf : Doc -> String`; every
  theorem about the integrity ledger is universally quantified over it.
  Timestamps are dropped: they are never parsed for semantics.
* Python functions that terminate the process (`sys.exit`) are modelled
  with an explicit result constructor; fallible file reads surface as
  `Option`.
-/

namespace Checklists

/-- One line of a document, distinguishing exactly the shapes the CLI's
regular expressions scan for. -/
inductive DocLine where
  | checkbox (checked : Bool) (item : String)
  | header (title : String)
  | statusOpen
  | statusComplete
  | questionNote (txt : String)
  | warnNote (txt : String)
  | childLink (label : String) (target : String)
  | text (s : String)
deriving DecidableEq

/-- A document is an ordered list of lines. -/
abbrev Doc := List DocLine

/-- Greedy run of decimal digits at the head of a character list,
mirroring a leading regex group of one-or-more digits. -/
def takeDigits : List Char → List Char × List Char
  | [] => ([], [])
  | c :: t =>
    if c.isDigit then
      let p := takeDigits t
      (c :: p.1, p.2)
    else ([], c :: t)

/-- Split a character list at the first occurrence of `.md`, returning
the part before it and the part after it (the non-greedy group of the
step-reference regexes).  `none` when `.md` never occurs. -/
def splitAtMd : List Char → Option (List Char × List Char)
  | [] => none
  | c :: t =>
    if c = '.' ∧ [ 'm', 'd'].isPrefixOf t then some ([], t.drop 2)
    else (splitAtMd t).map (fun p => (c :: p.1, p.2))

/-- `re.match` of `STEP_(\d+)__(.*?)\.md` against the head of a string:
returns the digit group, the description group, and the characters left
after the matched reference. -/
def matchStepRef (l : List Char) : Option (List Char × List Char × List Char) :=
  if ("STEP_".toList).isPrefixOf l then
    match takeDigits (l.drop 5) with
    | ([], _) => none
    | (ds, l2) =>
      if ("__".toList).isPrefixOf l2 then
        match splitAtMd (l2.drop 2) with
        | some (d, r) => some (ds, d, r)
        | none => none
      else none
  else none

/-- Reassemble the reference string captured by the tree-entry regex. -/
def stepRefOf (ds d : List Char) : String :=
  String.mk ("STEP_".toList ++ ds ++ "__".toList ++ d ++ ".md".toList)

/-- Full match of the child-reference grammar `STEP_\d+[A-Z]__.*?\.md`:
prefix, one-or-more digits, a single ASCII capital, a double underscore,
and a tail ending in `.md`. -/
def childRefOk (l : String) : Bool :=
  let cs := l.toList
  if ("STEP_".toList).isPrefixOf cs then
    match takeDigits (cs.drop 5) with
    | ([], _) => false
    | (_, r) =>
      match r with
      | c :: r2 =>
        c.isUpper && ("__".toList).isPrefixOf r2 && (".md".toList).isSuffixOf (r2.drop 2)
      | [] => false
  else false

/-- `all_checkboxes_checked` on a document body: every `- [c]` line is
checked (the regex finds every box in the file, both substeps and tree
entries). -/
def all_checkboxes_checked (d : Doc) : Bool :=
  d.all fun l =>
    match l with
    | .checkbox c _ => c
    | _ => true

/-- Character membership in a string (the `in` test of Python on a
single character), by structural recursion over the characters. -/
def charIn (c : Char) : List Char → Bool
  | [] => false
  | x :: t => x == c || charIn c t

/-- Whether a line contains the open-question glyph anywhere. -/
def lineHasQuestion : DocLine → Bool
  | .questionNote _ => true
  | .warnNote t => charIn '❓' t.toList
  | .text s => charIn '❓' s.toList
  | .checkbox _ item => charIn '❓' item.toList
  | .header t => charIn '❓' t.toList
  | .childLink l t => charIn '❓' l.toList || charIn '❓' t.toList
  | _ => false

/-- `no_pending_questions` on a document body: the question glyph occurs
nowhere in the content. -/
def no_pending_questions (d : Doc) : Bool :=
  d.all fun l => !lineHasQuestion l

/-- Whether a line is the Complete status marker. -/
def isCompleteLine : DocLine → Bool
  | .statusComplete => true
  | _ => false

/-- `'**Status:** Complete' in content`: the document shows the Complete
status marker. -/
def doc_is_complete (d : Doc) : Bool :=
  d.any isCompleteLine

/-- `get_child_steps` on a document body: the labels of links whose
label and target are the identical child-step reference. -/
def get_child_steps (d : Doc) : List String :=
  d.filterMap fun l =>
    match l with
    | .childLink lab tgt => if lab == tgt && childRefOk lab then some lab else none
    | _ => none

/-- Whether a line is an open checklist box (the `- \[ \]` scan of
`checklist_incomplete`). -/
def isOpenBox : DocLine → Bool
  | .checkbox c _ => !c
  | _ => false

/-- Whether the document contains any open checklist box. -/
def hasOpenBox (d : Doc) : Bool :=
  d.any isOpenBox

/-- Whether a line is the Required Execution Tree section header. -/
def isTreeHeader : DocLine → Bool
  | .header t => ("🗂 Required Execution Tree".toList).isPrefixOf t.toList
  | _ => false

/-- Whether a line is any second-level header (an occurrence of a
double hash, which terminates the lazy section group). -/
def isHeaderLine : DocLine → Bool
  | .header _ => true
  | _ => false

/-- Lines up to, and excluding, the next header; `none` when no further
header occurs (the section regex then has no terminator and fails). -/
def takeUntilHeader : Doc → Option Doc
  | [] => none
  | l :: rest =>
    if isHeaderLine l then some []
    else (takeUntilHeader rest).map (fun s => l :: s)

/-- The Required Execution Tree section of a document: the lines between
the first tree header and the next header. -/
def treeSection : Doc → Option Doc
  | [] => none
  | l :: rest =>
    if isTreeHeader l then takeUntilHeader rest
    else treeSection rest

/-- The ordered `(checked, step-reference)` pairs of a section, as
captured by the tree-entry regex: a box line whose item starts with a
step reference contributes its state and the captured reference. -/
def treeEntries (sec : Doc) : List (Bool × String) :=
  sec.filterMap fun l =>
    match l with
    | .checkbox c item =>
      match matchStepRef item.toList with
      | some (ds, d, _) => some (c, stepRefOf ds d)
      | none => none
    | _ => none

/-- The entries of a tree document: the entries of its Required
Execution Tree section, or `[]` when that section is absent. -/
def treeEntriesOf (d : Doc) : List (Bool × String) :=
  match treeSection d with
  | some sec => treeEntries sec
  | none => []

/-- Parsed form of an `EXPECTED_OUTPUT_<num>.json` file: an optional
list of validation commands and the declared-but-unenforced expected
logs field (JSON serialization itself is an external facility). -/
structure Expected where
  validationCommands : Option (List String)
  expectedLogs : Option (List String)
deriving DecidableEq

/-- The persistent state the CLI operates on, together with the
environment of its external collaborators.  `lock` is the content
(reason) of `.model_push_lock`; `currentStep` the content of
`.current_step.lock`; the two bootstrap documents, the step files (name
to content), the two scratchpad documents, the hash ledger (path and
recorded digest, in append order) and the expected-output store mirror
the files on disk.  `cmdExit` gives the exit code of an opaque shell
command, `gitDirty` the outcome of `git diff --exit-code`,
`validateScriptExists` / `validateExit` the standalone validation
script, `gitStatusDirty` the commit-needed test of `try_push`, and
`pushError` an exception raised during the publish phase. -/
structure SysState where
  lock : Option String
  currentStep : Option String
  newProjectBootstrap : Option Doc
  fixBootstrap : Option Doc
  stepFiles : List (String × Doc)
  thoughts : Doc
  inconsistencies : Doc
  hashLog : List (String × String)
  expected : List (String × Expected)
  cmdExit : String → Nat
  gitDirty : Bool
  validateScriptExists : Bool
  validateExit : Nat
  gitStatusDirty : Bool
  pushError : Option String

/-- Content of the step file with the given name, when it exists. -/
def fileAt (s : SysState) (n : String) : Option Doc :=
  (s.stepFiles.find? (fun p => p.1 == n)).map (fun p => p.2)

/-- Write a step file: overwrite when present, create otherwise. -/
def setFile (n : String) (c : Doc) (s : SysState) : SysState :=
  { s with stepFiles :=
      if (s.stepFiles.find? (fun p => p.1 == n)).isSome then
        s.stepFiles.map (fun p => if p.1 == n then (n, c) else p)
      else s.stepFiles ++ [(n, c)] }

/-- `create_lock_file`: (over)write the lock marker with a reason. -/
def create_lock_file (reason : String) (s : SysState) : SysState :=
  { s with lock := some reason }

/-- `remove_lock_file`: remove the lock marker if present. -/
def remove_lock_file (s : SysState) : SysState :=
  { s with lock := none }

/-- `assert_not_locked`: `true` when the caller may proceed, `false`
when the lock marker exists (the Python function then exits). -/
def assert_not_locked (s : SysState) : Bool :=
  s.lock.isNone

/-- `assert_current_file_is`: `true` when the given path equals the
current active step recorded in `.current_step.lock`; the Python
function exits otherwise (also when no current step is recorded). -/
def assert_current_file_is (s : SysState) (name : String) : Bool :=
  s.currentStep == some name

/-- `log_file_hash`: append the document's digest to the ledger;
`none` models the exception raised when the file does not exist. -/
def log_file_hash (hf : Doc → String) (p : String) (s : SysState) : Option SysState :=
  match fileAt s p with
  | none => none
  | some c => some { s with hashLog := s.hashLog ++ [(p, hf c)] }

/-- `verify_file_hashes`: every ledger entry whose path still exists
must have its recorded digest equal to the current one; entries for
missing paths are skipped.  Returns at the first mismatch, which agrees
with the conjunction over all entries. -/
def verify_file_hashes (hf : Doc → String) (s : SysState) : Bool :=
  s.hashLog.all fun e =>
    match fileAt s e.1 with
    | none => true
    | some c => hf c == e.2

/-- The most recently logged digest for a path, if any. -/
def lastLogged (s : SysState) (p : String) : Option String :=
  ((s.hashLog.reverse).find? (fun e => e.1 == p)).map (fun e => e.2)

/-- The ledger invariant exactly as the specification states it: every
ledger path that still exists has its current digest equal to the MOST
RECENTLY logged one.  Stated from the specification's words, to be
compared with `verify_file_hashes`. -/
def most_recent_hash_check (hf : Doc → String) (s : SysState) : Bool :=
  s.hashLog.all fun e =>
    match fileAt s e.1 with
    | none => true
    | some c => lastLogged s e.1 == some (hf c)

/-- The description words of a step reference: separators replaced by
spaces. -/
def descRender (d : List Char) : List Char :=
  d.map fun c => if c = '_' then ' ' else c

/-- Template body for position 1 of the new-initiative tree. -/
def newStep01Doc (num desc : String) : Doc :=
  [ .text ("# STEP " ++ num ++ ": " ++ desc),
    .text "**Parent:** NEW_PROJECT_INIT.md",
    .statusOpen,
    .header "🧰 Stack Options (Choose one)",
    .checkbox false "Full Python (FastAPI + PyScript)",
    .checkbox false "JS/TS (Next.js + Express)",
    .checkbox false "Polyglot: Rust backend + Svelte frontend",
    .header "📋 Step Verification Rules",
    .checkbox false "One stack option is selected",
    .checkbox false "Selection is documented in STACK_SELECTION.md",
    .checkbox false "Required dependencies are listed",
    .header "📎 Notes",
    .text "🧠 Guidance: Choose based on team expertise, performance needs, and development speed requirements.",
    .text "🧠 Pending: Need to verify if any existing code has framework dependencies." ]

/-- Template body for position 2 of the new-initiative tree. -/
def newStep02Doc (num desc : String) : Doc :=
  [ .text ("# STEP " ++ num ++ ": " ++ desc),
    .text "**Parent:** NEW_PROJECT_INIT.md",
    .statusOpen,
    .header "📁 Task",
    .text "Create the canonical Hybrid XaaS skeleton: src (frontend, backend, shared), tests, scripts, infra, rag_tasks.",
    .header "📋 Checklist",
    .checkbox false "Create /src/frontend, /src/backend, /src/shared",
    .checkbox false "Create /tests, /scripts, /infra",
    .checkbox false "Add README.md in each folder with initial note",
    .checkbox false "Validate structure with tree command",
    .header "✅ Validation",
    .text "Expected folders must exist with non-empty README",
    .text "Run tree -d and confirm against spec" ]

/-- Generic template body for every other position. -/
def defaultStepDoc (num desc parent : String) : Doc :=
  [ .text ("# STEP " ++ num ++ ": " ++ desc),
    .text ("**Parent:** " ++ parent),
    .statusOpen,
    .header "⬇️ Substeps",
    .checkbox false "Analyze the issue",
    .checkbox false "Identify potential solutions",
    .checkbox false "Select the best approach",
    .header "📋 Step Verification Rules",
    .checkbox false "All substeps are complete",
    .checkbox false "No pending questions in scratchpad",
    .header "📎 Notes",
    .text "🧠 Initial thoughts: This step needs to be completed before moving to the next one." ]

/-- `create_step_file`: render the template selected by position and
tree kind; names that fail the reference grammar create nothing (the
Python function prints an error and returns). -/
def create_step_file (name : String) (s : SysState) : SysState :=
  match matchStepRef name.toList with
  | none => s
  | some (ds, d, _) =>
    let num := String.mk ds
    let desc := String.mk (descRender d)
    let isNew := s.newProjectBootstrap.isSome
    let content :=
      if num == "01" && isNew then newStep01Doc num desc
      else if num == "02" && isNew then newStep02Doc num desc
      else defaultStepDoc num desc
        (if isNew then "NEW_PROJECT_INIT.md" else "000_BOOTSTRAP_FIX_INIT.md")
    setFile name content s

/-- The bootstrap document the registry operates on: the new-initiative
tree when it exists, else the fix/maintenance tree. -/
def governingBootstrap (s : SysState) : Option Doc :=
  match s.newProjectBootstrap with
  | some d => some d
  | none => s.fixBootstrap

/-- Outcome of `get_active_step`: tampering lock-and-exit, the reasons
for yielding no step, or the resolved active step. -/
inductive ActiveResult where
  | tampering
  | noBootstrap
  | noTreeSection
  | done
  | active (step : String)
deriving DecidableEq

/-- `get_active_step`: verify the ledger (lock and halt on mismatch),
select the governing bootstrap, parse its tree section, and return the
first entry whose box is open, creating its document from the template
when absent, recording it as current and appending its digest to the
ledger; yields `done` when every entry is checked. -/
def get_active_step (hf : Doc → String) (s : SysState) : ActiveResult × SysState :=
  if verify_file_hashes hf s then
    match governingBootstrap s with
    | none => (.noBootstrap, s)
    | some doc =>
      match treeSection doc with
      | none => (.noTreeSection, s)
      | some sec =>
        match (treeEntries sec).find? (fun e => !e.1) with
        | none => (.done, s)
        | some e =>
          let s1 := if (fileAt s e.2).isSome then s else create_step_file e.2 s
          let s2 := { s1 with currentStep := some e.2 }
          match fileAt s2 e.2 with
          | some c => (.active e.2, { s2 with hashLog := s2.hashLog ++ [(e.2, hf c)] })
          | none => (.active e.2, s2)
  else (.tampering, create_lock_file "File tampering detected" s)

/-- `is_step_complete` on the store: a missing file is not complete;
an existing one is complete when it shows the Complete marker. -/
def is_step_completeS (s : SysState) (n : String) : Bool :=
  match fileAt s n with
  | none => false
  | some d => doc_is_complete d

/-- `all_checkboxes_checked` on the store (missing file counts as not
all checked, as in the Python helper). -/
def all_checkboxes_checkedS (s : SysState) (n : String) : Bool :=
  match fileAt s n with
  | none => false
  | some d => all_checkboxes_checked d

/-- `no_pending_questions` on the store (missing file counts as
failing, as in the Python helper). -/
def no_pending_questionsS (s : SysState) (n : String) : Bool :=
  match fileAt s n with
  | none => false
  | some d => no_pending_questions d

/-- `get_child_steps` on the store (missing file yields no children). -/
def get_child_stepsS (s : SysState) (n : String) : List String :=
  match fileAt s n with
  | none => []
  | some d => get_child_steps d

/-- The first referenced child that blocks the child gate, if any,
paired with `true` when it is missing and `false` when it exists but is
not marked Complete. -/
def firstBadChild (s : SysState) : List String → Option (String × Bool)
  | [] => none
  | c :: cs =>
    match fileAt s c with
    | none => some (c, true)
    | some d => if doc_is_complete d then firstBadChild s cs else some (c, false)

/-- The diagnostic reason the child gate locks with, naming the child. -/
def childReason (cb : String × Bool) : String :=
  (if cb.2 then "Missing child step: " else "Incomplete child step: ") ++ cb.1

/-- `log_inconsistency`: insert a dated warning entry right after every
`## Unresolved Inconsistencies` header of the scratchpad document (the
substitution replaces each occurrence; absent header leaves the document
unchanged). -/
def insertAfterIncHeader (w : DocLine) : Doc → Doc
  | [] => []
  | l :: rest =>
    if l = .header "Unresolved Inconsistencies" then l :: w :: insertAfterIncHeader w rest
    else l :: insertAfterIncHeader w rest

/-- `log_inconsistency` on the state: record a validation failure in
the inconsistencies scratchpad. -/
def log_inconsistency (s : SysState) : SysState :=
  { s with inconsistencies :=
      insertAfterIncHeader (.warnNote "Validation failed") s.inconsistencies }

/-- Run the declared validation commands in order through the external
process runner; the first non-zero exit logs an inconsistency and
fails. -/
def runCmds (s : SysState) : List String → Bool × SysState
  | [] => (true, s)
  | c :: cs =>
    if s.cmdExit c == 0 then runCmds s cs
    else (false, log_inconsistency s)

/-- `validate_expected_output`: a name failing the reference grammar
fails; no expected-output file for the step number is not a failure;
otherwise every declared validation command must exit zero (the
`expected_logs` field is declared but not enforced). -/
def validate_expected_output (s : SysState) (name : String) : Bool × SysState :=
  match matchStepRef name.toList with
  | none => (false, s)
  | some (ds, _, _) =>
    match s.expected.find? (fun e => e.1 == String.mk ds) with
    | none => (true, s)
    | some ex =>
      match ex.2.validationCommands with
      | none => (true, s)
      | some cmds => runCmds s cmds

/-- Flip the open status marker to Complete (the substitution replaces
every occurrence of the open marker). -/
def flipStatus : DocLine → DocLine
  | .statusOpen => .statusComplete
  | l => l

/-- Check off the tree entry whose box is open and whose item is the
exact reference string (the substitution rewrites every match). -/
def checkTreeEntry (name : String) : DocLine → DocLine
  | .checkbox false item => if item == name then .checkbox true item else .checkbox false item
  | l => l

/-- `mark_step_complete`: rewrite the step document's status marker to
Complete, then check off the matching entry in the fix/maintenance
bootstrap document; each write is skipped when its file is absent (the
Python function prints an error and returns). -/
def mark_step_complete (s : SysState) (name : String) : SysState :=
  match fileAt s name with
  | none => s
  | some d =>
    let s1 := setFile name (d.map flipStatus) s
    match s1.fixBootstrap with
    | none => s1
    | some bd => { s1 with fixBootstrap := some (bd.map (checkTreeEntry name)) }

/-- Outcome of `verify_step`: `exited` models the `sys.exit` of the
active-step assertion; `ret b` the boolean returned to the caller. -/
inductive VerifyResult where
  | exited
  | ret (b : Bool)
deriving DecidableEq

/-- `verify_step`: assert the step is current (exit otherwise), then
run the blocking gates in order — file existence, checkbox closure,
no pending questions, child completeness, expected-output validation —
locking with a diagnostic reason at each gate failure except the
existence check; the git-diff check is advisory and ignored by the
control flow; on success mark the step complete and remove the lock. -/
def verify_step (s : SysState) (name : String) : VerifyResult × SysState :=
  if assert_current_file_is s name then
    match fileAt s name with
    | none => (.ret false, s)
    | some doc =>
      if all_checkboxes_checked doc then
        if no_pending_questions doc then
          match firstBadChild s (get_child_steps doc) with
          | some cb => (.ret false, create_lock_file (childReason cb) s)
          | none =>
            match validate_expected_output s name with
            | (true, s1) => (.ret true, remove_lock_file (mark_step_complete s1 name))
            | (false, s1) => (.ret false, create_lock_file "Expected output validation failed" s1)
        else (.ret false, create_lock_file "Pending questions in checklist" s)
      else (.ret false, create_lock_file "Incomplete checklist items" s)
  else (.exited, s)

/-- The dated question entries of the open-questions scratchpad, as the
push gate's regex captures them. -/
def pendingQuestions (s : SysState) : List String :=
  s.thoughts.filterMap fun l =>
    match l with
    | .questionNote t => some t
    | _ => none

/-- The dated warning entries of the inconsistencies scratchpad, as the
push gate's regex captures them. -/
def unresolvedInconsistencies (s : SysState) : List String :=
  s.inconsistencies.filterMap fun l =>
    match l with
    | .warnNote t => some t
    | _ => none

/-- `checklist_incomplete`: `true` when the fix/maintenance bootstrap
is absent or contains any open checklist box anywhere in its content. -/
def checklist_incomplete (s : SysState) : Bool :=
  match s.fixBootstrap with
  | none => true
  | some d => hasOpenBox d

/-- Outcome of `try_push`: one blocked constructor per cause, a push
that reached the external publisher (recording whether a commit was
made first), or a publish-phase exception converted into a lock. -/
inductive PushResult where
  | blockedLock
  | blockedChecklist
  | blockedQuestions
  | blockedInconsistencies
  | blockedValidation
  | pushed (committed : Bool)
  | pushFailed
deriving DecidableEq

/-- Whether the external publish phase (commit/push) was entered. -/
def publishAttempted : PushResult → Bool
  | .pushed _ => true
  | .pushFailed => true
  | _ => false

/-- `try_push`: refuse while locked; lock and refuse when the checklist
is incomplete, when a pending question or an unresolved inconsistency
exists, or when the standalone validation script exists and fails; only
then stage, commit when needed, and push, converting a publish-phase
exception into a lock. -/
def try_push (s : SysState) : PushResult × SysState :=
  match s.lock with
  | some _ => (.blockedLock, s)
  | none =>
    if checklist_incomplete s then
      (.blockedChecklist, create_lock_file "Checklist incomplete" s)
    else if !(pendingQuestions s).isEmpty then
      (.blockedQuestions, create_lock_file "Pending questions in scratchpad" s)
    else if !(unresolvedInconsistencies s).isEmpty then
      (.blockedInconsistencies, create_lock_file "Unresolved inconsistencies" s)
    else if s.validateScriptExists && !(s.validateExit == 0) then
      (.blockedValidation, create_lock_file "Output validation failed" s)
    else
      match s.pushError with
      | some e => (.pushFailed, create_lock_file ("Error pushing changes: " ++ e) s)
      | none => (.pushed s.gitStatusDirty, s)

/-- The claim-level external-validation condition for a step number:
either no expected-output specification exists, or every declared
validation command exits zero. -/
def spec_validation_ok (exp : List (String × Expected)) (exit : String → Nat)
    (num : String) : Bool :=
  match exp.find? (fun e => e.1 == num) with
  | none => true
  | some ex => (ex.2.validationCommands.getD []).all (fun c => exit c == 0)

/-- The boolean outcome of `validate_expected_output` as a pure function
of the expected-output store and the command environment. -/
def validation_pass (exp : List (String × Expected)) (exit : String → Nat)
    (name : String) : Bool :=
  match matchStepRef name.toList with
  | none => false
  | some (ds, _, _) => spec_validation_ok exp exit (String.mk ds)

/-- A state with no lock, no current step, no documents, an empty
ledger and scratchpads, and a benign environment: the base point for
the concrete instances below. -/
def baseState : SysState :=
  { lock := none, currentStep := none, newProjectBootstrap := none,
    fixBootstrap := none, stepFiles := [], thoughts := [], inconsistencies := [],
    hashLog := [], expected := [], cmdExit := fun _ => 0, gitDirty := false,
    validateScriptExists := false, validateExit := 0, gitStatusDirty := false,
    pushError := none }

/-- A digest function for concrete instances (every theorem about the
ledger is quantified over the digest function). -/
def hfC : Doc → String := fun _ => "h2"

/-- A step document whose gates all pass: open status marker, every
box checked, no questions, no child links. -/
def stepDone : Doc :=
  [DocLine.statusOpen, .checkbox true "task done"]

/-- A state in which `STEP_01__x.md` is the current step and its
document passes every gate. -/
def sVerifyOk : SysState :=
  { baseState with
    currentStep := some "STEP_01__x.md",
    stepFiles := [("STEP_01__x.md", stepDone)] }

/-- A new-initiative tree document whose single entry is still open. -/
def newTree : Doc :=
  [DocLine.header "🗂 Required Execution Tree",
   .checkbox false "STEP_01__x.md",
   .header "Next Steps"]

/-- A state governed by the new-initiative tree (the fix tree is
absent) whose current step passes every gate. -/
def sNewTree : SysState :=
  { sVerifyOk with newProjectBootstrap := some newTree }

/-- A fix/maintenance tree document whose single entry is still open. -/
def fixTreeX : Doc :=
  [DocLine.header "🗂 Required Execution Tree",
   .checkbox false "STEP_01__x.md",
   .header "End"]

/-- A state governed by the fix tree whose current step passes every
gate. -/
def sFixTree : SysState :=
  { sVerifyOk with fixBootstrap := some fixTreeX }

/-- A verifiable state that carries a stale lock. -/
def sLocked : SysState :=
  { sVerifyOk with lock := some "stale failure" }

/-- A state whose current step document does not exist. -/
def sMissing : SysState :=
  { baseState with currentStep := some "STEP_01__x.md" }

/-- A state whose current step document has an open checkbox. -/
def sBadBox : SysState :=
  { baseState with
    currentStep := some "STEP_01__x.md",
    stepFiles := [("STEP_01__x.md", [DocLine.statusOpen, .checkbox false "undone"])] }

/-- A ledger with two entries for the same path and different digests:
the current content matches only the later one. -/
def sLedger : SysState :=
  { baseState with
    stepFiles := [("p", [DocLine.text "v2"])],
    hashLog := [("p", "h1"), ("p", "h2")] }

/-- A state holding one step document and an empty ledger. -/
def sOneFile : SysState :=
  { baseState with stepFiles := [("p", [DocLine.text "v"])] }

/-- A fix tree with two entries, the first checked and the second
open. -/
def fixTreeTwo : Doc :=
  [DocLine.header "🗂 Required Execution Tree",
   .checkbox true "STEP_01__a.md",
   .checkbox false "STEP_02__b.md",
   .header "End"]

/-- A state governed by the two-entry fix tree. -/
def sTree : SysState :=
  { baseState with fixBootstrap := some fixTreeTwo }

/-- A parent step document that passes the checkbox and question gates
and references one child step. -/
def parentDoc : Doc :=
  [DocLine.statusOpen, .checkbox true "ok",
   .childLink "STEP_01A__X.md" "STEP_01A__X.md"]

/-- A state whose current step is the parent document; the referenced
child does not exist. -/
def sParent : SysState :=
  { baseState with
    currentStep := some "STEP_01__p.md",
    stepFiles := [("STEP_01__p.md", parentDoc)] }

/-- A child document marked Complete. -/
def childDone : Doc :=
  [DocLine.statusComplete]

/-- A fully checked new-initiative tree. -/
def newAllChecked : Doc :=
  [DocLine.header "🗂 Required Execution Tree",
   .checkbox true "STEP_01__a.md",
   .header "End"]

/-- A state where the new-initiative tree exists fully checked while
the fix tree is absent. -/
def sNewDone : SysState :=
  { baseState with newProjectBootstrap := some newAllChecked }

lemma runCmds_fst (s : SysState) (cs : List String) :
    (runCmds s cs).1 = cs.all (fun c => s.cmdExit c == 0) := by
  induction cs with
  | nil => rfl
  | cons c cs ih =>
    simp only [runCmds, List.all_cons]
    cases h : s.cmdExit c == 0 <;> simp [h, ih]

lemma runCmds_true (s : SysState) (cs : List String) (h : (runCmds s cs).1 = true) :
    runCmds s cs = (true, s) := by
  induction cs with
  | nil => rfl
  | cons c cs ih =>
    cases hc : s.cmdExit c == 0
    · rw [runCmds, hc] at h
      simp at h
    · rw [runCmds, hc] at h ⊢
      simp only [if_true]
      exact ih h

lemma validate_true_state (s : SysState) (name : String)
    (h : (validate_expected_output s name).1 = true) :
    validate_expected_output s name = (true, s) := by
  unfold validate_expected_output at h ⊢
  cases hm : matchStepRef name.toList with
  | none => rw [hm] at h; simp at h
  | some t =>
    obtain ⟨ds, d, r⟩ := t
    rw [hm] at h
    replace h : (match s.expected.find? (fun e : String × Expected => e.1 == String.mk ds) with
        | none => ((true : Bool), s)
        | some ex =>
          match ex.2.validationCommands with
          | none => ((true : Bool), s)
          | some cmds => runCmds s cmds).1 = true := h
    show (match s.expected.find? (fun e : String × Expected => e.1 == String.mk ds) with
        | none => ((true : Bool), s)
        | some ex =>
          match ex.2.validationCommands with
          | none => ((true : Bool), s)
          | some cmds => runCmds s cmds) = ((true : Bool), s)
    cases hfd : s.expected.find? (fun e : String × Expected => e.1 == String.mk ds) with
    | none => rfl
    | some ex =>
      rw [hfd] at h
      replace h : (match ex.2.validationCommands with
          | none => ((true : Bool), s)
          | some cmds => runCmds s cmds).1 = true := h
      show (match ex.2.validationCommands with
          | none => ((true : Bool), s)
          | some cmds => runCmds s cmds) = ((true : Bool), s)
      cases hvc : ex.2.validationCommands with
      | none => rfl
      | some cmds =>
        rw [hvc] at h
        exact runCmds_true s cmds h

lemma firstBadChild_cons (s : SysState) (c : String) (cs : List String) :
    firstBadChild s (c :: cs) =
      cond (is_step_completeS s c) (firstBadChild s cs) (some (c, (fileAt s c).isNone)) := by
  rw [firstBadChild]
  unfold is_step_completeS
  cases hD : fileAt s c with
  | none => simp
  | some d => cases hc : doc_is_complete d <;> simp [hc]

lemma firstBadChild_none_iff (s : SysState) (cs : List String) :
    firstBadChild s cs = none ↔ ∀ c ∈ cs, is_step_completeS s c = true := by
  induction cs with
  | nil => simp [firstBadChild]
  | cons c cs ih =>
    rw [firstBadChild_cons]
    cases hc : is_step_completeS s c
    · simp only [Bool.cond_false]
      constructor
      · intro h; exact absurd h (by simp)
      · intro h
        have h2 := h c (List.mem_cons_self c cs)
        rw [hc] at h2
        exact absurd h2 (by simp)
    · simp only [Bool.cond_true]
      rw [ih]
      constructor
      · intro h x hx
        rcases List.mem_cons.mp hx with rfl | hx
        · exact hc
        · exact h x hx
      · intro h x hx
        exact h x (List.mem_cons_of_mem _ hx)

lemma firstBadChild_first (s : SysState) (pre : List String) (c : String) (post : List String)
    (hpre : ∀ x ∈ pre, is_step_completeS s x = true)
    (hc : is_step_completeS s c = false) :
    firstBadChild s (pre ++ c :: post) = some (c, (fileAt s c).isNone) := by
  induction pre with
  | nil => rw [List.nil_append, firstBadChild_cons, hc, Bool.cond_false]
  | cons p pre ih =>
    have hp := hpre p (List.mem_cons_self p pre)
    rw [List.cons_append, firstBadChild_cons, hp, Bool.cond_true]
    exact ih (fun x hx => hpre x (List.mem_cons_of_mem _ hx))

lemma verify_step_fst_char (s : SysState) (name : String) :
    (verify_step s name).1 =
      cond (assert_current_file_is s name)
        (match fileAt s name with
        | none => VerifyResult.ret false
        | some doc =>
          VerifyResult.ret (all_checkboxes_checked doc && no_pending_questions doc
            && (firstBadChild s (get_child_steps doc)).isNone
            && (validate_expected_output s name).1))
        VerifyResult.exited := by
  unfold verify_step
  cases hA : assert_current_file_is s name
  · simp [hA]
  · simp only [hA, if_true, Bool.cond_true]
    cases hD : fileAt s name with
    | none => simp [hD]
    | some doc =>
      simp only [hD]
      cases hcb : all_checkboxes_checked doc
      · simp [hcb]
      · cases hq : no_pending_questions doc
        · simp [hcb, hq]
        · cases hch : firstBadChild s (get_child_steps doc) with
          | some cb => simp [hcb, hq, hch]
          | none =>
            rcases hv : validate_expected_output s name with ⟨b, s1⟩
            cases b <;> simp [hcb, hq, hch, hv]

lemma verify_step_success (s : SysState) (name : String) (doc : Doc)
    (hA : assert_current_file_is s name = true)
    (hD : fileAt s name = some doc)
    (hcb : all_checkboxes_checked doc = true)
    (hq : no_pending_questions doc = true)
    (hch : firstBadChild s (get_child_steps doc) = none)
    (hv : (validate_expected_output s name).1 = true) :
    verify_step s name =
      (VerifyResult.ret true, remove_lock_file (mark_step_complete s name)) := by
  have hv2 := validate_true_state s name hv
  unfold verify_step
  simp only [hA, hD, hcb, hq, hch, hv2, if_true]

lemma verify_step_true_inv (s : SysState) (name : String)
    (h : (verify_step s name).1 = VerifyResult.ret true) :
    assert_current_file_is s name = true ∧ ∃ doc, fileAt s name = some doc ∧
      all_checkboxes_checked doc = true ∧ no_pending_questions doc = true ∧
      firstBadChild s (get_child_steps doc) = none ∧
      (validate_expected_output s name).1 = true := by
  rw [verify_step_fst_char] at h
  cases hA : assert_current_file_is s name
  · rw [hA, Bool.cond_false] at h
    exact absurd h (by simp)
  · rw [hA, Bool.cond_true] at h
    refine ⟨rfl, ?_⟩
    revert h
    cases hD : fileAt s name with
    | none =>
      intro h
      simp at h
    | some doc =>
      intro h
      have hb := VerifyResult.ret.inj h
      rw [Bool.and_eq_true, Bool.and_eq_true, Bool.and_eq_true] at hb
      obtain ⟨⟨⟨h1, h2⟩, h3⟩, h4⟩ := hb
      exact ⟨doc, rfl, h1, h2, Option.isNone_iff_eq_none.mp h3, h4⟩

lemma verify_step_true_snd (s : SysState) (name : String)
    (h : (verify_step s name).1 = VerifyResult.ret true) :
    (verify_step s name).2 = remove_lock_file (mark_step_complete s name) := by
  obtain ⟨hA, doc, hD, hcb, hq, hch, hv⟩ := verify_step_true_inv s name h
  rw [verify_step_success s name doc hA hD hcb hq hch hv]

lemma validate_fst_eq (s : SysState) (name : String) :
    (validate_expected_output s name).1 = validation_pass s.expected s.cmdExit name := by
  unfold validate_expected_output validation_pass
  cases hm : matchStepRef name.toList with
  | none => rfl
  | some tr =>
    obtain ⟨ds, d, r⟩ := tr
    show (match s.expected.find? (fun e : String × Expected => e.1 == String.mk ds) with
        | none => ((true : Bool), s)
        | some ex =>
          match ex.2.validationCommands with
          | none => ((true : Bool), s)
          | some cmds => runCmds s cmds).1 =
      spec_validation_ok s.expected s.cmdExit (String.mk ds)
    unfold spec_validation_ok
    cases hfd : s.expected.find? (fun e : String × Expected => e.1 == String.mk ds) with
    | none => rfl
    | some ex =>
      show (match ex.2.validationCommands with
          | none => ((true : Bool), s)
          | some cmds => runCmds s cmds).1 =
        (ex.2.validationCommands.getD []).all (fun c => s.cmdExit c == 0)
      cases hvc : ex.2.validationCommands with
      | none => rfl
      | some cmds =>
        show (runCmds s cmds).1 = ((some cmds).getD []).all (fun c => s.cmdExit c == 0)
        rw [runCmds_fst]
        rfl

lemma validate_fst_of_name (s : SysState) (name : String) (ds dsc r : List Char)
    (hname : matchStepRef name.toList = some (ds, dsc, r)) :
    (validate_expected_output s name).1 =
      spec_validation_ok s.expected s.cmdExit (String.mk ds) := by
  rw [validate_fst_eq]
  unfold validation_pass
  simp only [hname]

lemma fileAt_congr (s t : SysState) (h : t.stepFiles = s.stepFiles) (n : String) :
    fileAt t n = fileAt s n := by
  unfold fileAt
  rw [h]

lemma is_step_completeS_congr (s t : SysState) (h : t.stepFiles = s.stepFiles) (n : String) :
    is_step_completeS t n = is_step_completeS s n := by
  unfold is_step_completeS
  rw [fileAt_congr s t h]

lemma firstBadChild_congr (s t : SysState) (h : t.stepFiles = s.stepFiles) :
    ∀ cs, firstBadChild t cs = firstBadChild s cs := by
  intro cs
  induction cs with
  | nil => rfl
  | cons c cs ih =>
    rw [firstBadChild_cons, firstBadChild_cons, ih,
      is_step_completeS_congr s t h, fileAt_congr s t h]

lemma verify_fst_congr (s t : SysState) (name : String)
    (h1 : t.currentStep = s.currentStep)
    (h2 : t.stepFiles = s.stepFiles)
    (h3 : t.expected = s.expected)
    (h4 : t.cmdExit = s.cmdExit) :
    (verify_step t name).1 = (verify_step s name).1 := by
  have hcur : assert_current_file_is t name = assert_current_file_is s name := by
    unfold assert_current_file_is; rw [h1]
  have hval : (validate_expected_output t name).1 = (validate_expected_output s name).1 := by
    rw [validate_fst_eq, validate_fst_eq, h3, h4]
  rw [verify_step_fst_char, verify_step_fst_char, hcur, fileAt_congr s t h2, hval]
  cases hA : assert_current_file_is s name
  · rfl
  · simp only [Bool.cond_true]
    cases hD : fileAt s name with
    | none => rfl
    | some doc =>
      show VerifyResult.ret (all_checkboxes_checked doc && no_pending_questions doc
          && (firstBadChild t (get_child_steps doc)).isNone
          && (validate_expected_output s name).1) =
        VerifyResult.ret (all_checkboxes_checked doc && no_pending_questions doc
          && (firstBadChild s (get_child_steps doc)).isNone
          && (validate_expected_output s name).1)
      rw [firstBadChild_congr s t h2 (get_child_steps doc)]

lemma find?_map_over (l : List (String × Doc)) (n : String) (c : Doc) :
    (l.map (fun p => if p.1 == n then (n, c) else p)).find? (fun p => p.1 == n) =
      (l.find? (fun p => p.1 == n)).map (fun _ => (n, c)) := by
  induction l with
  | nil => rfl
  | cons p l ih =>
    rw [List.map_cons]
    by_cases h : p.1 = n
    · have hb : (p.1 == n) = true := by simp [h]
      rw [if_pos hb]
      simp [List.find?_cons, hb]
    · have hb : (p.1 == n) = false := by simp [h]
      rw [if_neg (by simp [hb])]
      simp only [List.find?_cons, hb]
      exact ih

lemma find?_map_ne (l : List (String × Doc)) (n m : String) (c : Doc) (hmn : m ≠ n) :
    (l.map (fun p => if p.1 == n then (n, c) else p)).find? (fun p => p.1 == m) =
      l.find? (fun p => p.1 == m) := by
  induction l with
  | nil => rfl
  | cons p l ih =>
    rw [List.map_cons]
    by_cases h : p.1 = n
    · have hb : (p.1 == n) = true := by simp [h]
      have hnm : (n == m) = false := by simp [Ne.symm hmn]
      have hpm : (p.1 == m) = false := by rw [h]; exact hnm
      rw [if_pos hb]
      simp only [List.find?_cons, hnm, hpm]
      exact ih
    · have hb : (p.1 == n) = false := by simp [h]
      rw [if_neg (by simp [hb])]
      by_cases hm : p.1 = m
      · have hbm : (p.1 == m) = true := by simp [hm]
        simp only [List.find?_cons, hbm]
      · have hbm : (p.1 == m) = false := by simp [hm]
        simp only [List.find?_cons, hbm]
        exact ih

lemma fileAt_setFile_self (n : String) (c : Doc) (s : SysState) :
    fileAt (setFile n c s) n = some c := by
  unfold fileAt setFile
  by_cases h : (s.stepFiles.find? (fun p => p.1 == n)).isSome = true
  · rw [if_pos h, find?_map_over]
    obtain ⟨p, hp⟩ := Option.isSome_iff_exists.mp h
    rw [hp]
    rfl
  · rw [if_neg h, List.find?_append]
    have hn : s.stepFiles.find? (fun p => p.1 == n) = none := by
      cases hf : s.stepFiles.find? (fun p => p.1 == n) with
      | none => rfl
      | some p => rw [hf] at h; exact absurd rfl h
    rw [hn]
    simp [List.find?_cons]

lemma fileAt_setFile_ne (n : String) (c : Doc) (s : SysState) (m : String) (hmn : m ≠ n) :
    fileAt (setFile n c s) m = fileAt s m := by
  unfold fileAt setFile
  by_cases h : (s.stepFiles.find? (fun p => p.1 == n)).isSome = true
  · rw [if_pos h, find?_map_ne _ _ _ _ hmn]
  · rw [if_neg h, List.find?_append]
    have hone : List.find? (fun p : String × Doc => p.1 == m) [(n, c)] = none := by
      have hnm : (n == m) = false := by simp [Ne.symm hmn]
      simp [List.find?_cons, hnm]
    rw [hone]
    cases hf : s.stepFiles.find? (fun p : String × Doc => p.1 == m) <;> rfl

lemma find?_open_none_iff (l : List (Bool × String)) :
    l.find? (fun e => !e.1) = none ↔ ∀ e ∈ l, e.1 = true := by
  rw [List.find?_eq_none]
  constructor
  · intro h e he
    cases hc : e.1 with
    | false =>
      exfalso
      apply h e he
      rw [hc]
      rfl
    | true => rfl
  · intro h e he
    rw [h e he]
    simp

lemma find?_first_open (l : List (Bool × String)) :
    ∀ (i : Nat) (hi : i < l.length), (l.get ⟨i, hi⟩).1 = false →
      (∀ j (hj : j < i), (l.get ⟨j, Nat.lt_trans hj hi⟩).1 = true) →
      l.find? (fun e => !e.1) = some (l.get ⟨i, hi⟩) := by
  induction l with
  | nil => intro i hi; exact absurd hi (by simp)
  | cons e l ih =>
    intro i hi hopen hbefore
    cases i with
    | zero =>
      have hp : (!e.1) = true := by rw [show e.1 = false from hopen]; rfl
      exact List.find?_cons_of_pos _ hp
    | succ j =>
      have he : e.1 = true := hbefore 0 (Nat.succ_pos j)
      rw [List.find?_cons_of_neg _ (by rw [he]; simp)]
      have hj : j < l.length := Nat.lt_of_succ_lt_succ hi
      exact ih j hj hopen (fun k hk => hbefore (k + 1) (Nat.succ_lt_succ hk))

lemma takeUntilHeader_mem (d : Doc) :
    ∀ sec, takeUntilHeader d = some sec → ∀ l ∈ sec, l ∈ d := by
  induction d with
  | nil => intro sec h; simp [takeUntilHeader] at h
  | cons x d ih =>
    intro sec h l hl
    unfold takeUntilHeader at h
    by_cases hx : isHeaderLine x = true
    · rw [if_pos hx] at h
      injection h with h
      subst h
      simp at hl
    · rw [if_neg hx] at h
      cases ht : takeUntilHeader d with
      | none => rw [ht] at h; simp at h
      | some s2 =>
        rw [ht] at h
        replace h : some (x :: s2) = some sec := h
        injection h with h
        subst h
        rcases List.mem_cons.mp hl with rfl | hl
        · exact List.mem_cons_self _ _
        · exact List.mem_cons_of_mem _ (ih s2 ht l hl)

lemma treeSection_mem (d : Doc) :
    ∀ sec, treeSection d = some sec → ∀ l ∈ sec, l ∈ d := by
  induction d with
  | nil => intro sec h; simp [treeSection] at h
  | cons x d ih =>
    intro sec h l hl
    unfold treeSection at h
    by_cases hx : isTreeHeader x = true
    · rw [if_pos hx] at h
      exact List.mem_cons_of_mem _ (takeUntilHeader_mem d sec h l hl)
    · rw [if_neg hx] at h
      exact List.mem_cons_of_mem _ (ih sec h l hl)

lemma treeEntriesOf_open_hasOpenBox (d : Doc) (r : String)
    (h : (false, r) ∈ treeEntriesOf d) : hasOpenBox d = true := by
  unfold treeEntriesOf at h
  cases hs : treeSection d with
  | none => rw [hs] at h; simp at h
  | some sec =>
    rw [hs] at h
    obtain ⟨line, hline, hf⟩ := List.mem_filterMap.mp h
    have hmem := treeSection_mem d sec hs line hline
    cases line with
    | checkbox c item =>
      rw [hasOpenBox, List.any_eq_true]
      refine ⟨.checkbox c item, hmem, ?_⟩
      replace hf : (match matchStepRef item.toList with
          | some (ds, dd, _) => some ((c, stepRefOf ds dd) : Bool × String)
          | none => none) = some ((false : Bool), r) := hf
      cases hm : matchStepRef item.toList with
      | none => rw [hm] at hf; simp at hf
      | some tr =>
        obtain ⟨ds, dd, rr⟩ := tr
        rw [hm] at hf
        replace hf : some ((c, stepRefOf ds dd) : Bool × String) = some ((false : Bool), r) := hf
        injection hf with hf
        have hc : c = false := congrArg Prod.fst hf
        rw [show isOpenBox (DocLine.checkbox c item) = !c from rfl, hc]
        rfl
    | header t => exact Option.noConfusion hf
    | statusOpen => exact Option.noConfusion hf
    | statusComplete => exact Option.noConfusion hf
    | questionNote t => exact Option.noConfusion hf
    | warnNote t => exact Option.noConfusion hf
    | childLink a b => exact Option.noConfusion hf
    | text t => exact Option.noConfusion hf

lemma try_push_fst_char (s : SysState) :
    (try_push s).1 =
      match s.lock with
      | some _ => PushResult.blockedLock
      | none =>
        if checklist_incomplete s then PushResult.blockedChecklist
        else if !(pendingQuestions s).isEmpty then PushResult.blockedQuestions
        else if !(unresolvedInconsistencies s).isEmpty then PushResult.blockedInconsistencies
        else if s.validateScriptExists && !(s.validateExit == 0) then PushResult.blockedValidation
        else
          match s.pushError with
          | some _ => PushResult.pushFailed
          | none => PushResult.pushed s.gitStatusDirty := by
  unfold try_push
  cases hL : s.lock with
  | some r => rfl
  | none =>
    cases hCI : checklist_incomplete s
    all_goals cases hQ : (pendingQuestions s).isEmpty
    all_goals cases hI : (unresolvedInconsistencies s).isEmpty
    all_goals cases hV : s.validateScriptExists && !(s.validateExit == 0)
    all_goals cases hE : s.pushError
    all_goals simp [hCI, hQ, hI, hV, hE]

lemma try_push_publish_necessary (s : SysState)
    (hexcl : s.newProjectBootstrap = none ∨ s.fixBootstrap = none)
    (hpub : publishAttempted (try_push s).1 = true) :
    s.lock = none ∧
    (∃ d, governingBootstrap s = some d ∧ ∀ e ∈ treeEntriesOf d, e.1 = true) ∧
    pendingQuestions s = [] ∧ unresolvedInconsistencies s = [] := by
  rw [try_push_fst_char] at hpub
  cases hL : s.lock with
  | some r => rw [hL] at hpub; simp [publishAttempted] at hpub
  | none =>
    rw [hL] at hpub
    cases hCI : checklist_incomplete s
    · rw [hCI] at hpub
      cases hQ : (pendingQuestions s).isEmpty
      · rw [hQ] at hpub; simp [publishAttempted] at hpub
      · rw [hQ] at hpub
        cases hI : (unresolvedInconsistencies s).isEmpty
        · rw [hI] at hpub; simp [publishAttempted] at hpub
        · have hfix : ∃ d, s.fixBootstrap = some d ∧ hasOpenBox d = false := by
            unfold checklist_incomplete at hCI
            cases hF : s.fixBootstrap with
            | none => rw [hF] at hCI; simp at hCI
            | some d => rw [hF] at hCI; exact ⟨d, rfl, hCI⟩
          obtain ⟨d, hF, hOB⟩ := hfix
          have hgov : governingBootstrap s = some d := by
            unfold governingBootstrap
            rcases hexcl with hN | hFn
            · rw [hN]; exact hF
            · rw [hFn] at hF; exact Option.noConfusion hF
          refine ⟨rfl, ⟨d, hgov, ?_⟩, List.isEmpty_iff.mp hQ, List.isEmpty_iff.mp hI⟩
          intro e he
          cases hc : e.1 with
          | true => rfl
          | false =>
            exfalso
            have hmem : (false, e.2) ∈ treeEntriesOf d := by
              have he2 : e = (false, e.2) := by
                obtain ⟨e1, e2⟩ := e
                simp only at hc
                rw [hc]
              rw [← he2]
              exact he
            have := treeEntriesOf_open_hasOpenBox d e.2 hmem
            rw [hOB] at this
            exact absurd this (by simp)
    · rw [hCI] at hpub; simp [publishAttempted] at hpub

/-- C1: `attemptPublish` (`try_push`) reaches the external publish
phase only when no lock exists, the governing tree document has every
entry of its ordered sequence checked, and both scratchpad logs are
empty; whenever any of these conditions fails, the publish phase is not
entered (assuming the documented invariant that at most one tree kind
is in play). -/
theorem tryPush_strict (s : SysState)
    (hexcl : s.newProjectBootstrap = none ∨ s.fixBootstrap = none) :
    (publishAttempted (try_push s).1 = true →
      s.lock = none ∧
      (∃ d, governingBootstrap s = some d ∧ ∀ e ∈ treeEntriesOf d, e.1 = true) ∧
      pendingQuestions s = [] ∧ unresolvedInconsistencies s = []) ∧
    ((s.lock ≠ none ∨
      (∃ d e, governingBootstrap s = some d ∧ e ∈ treeEntriesOf d ∧ e.1 = false) ∨
      pendingQuestions s ≠ [] ∨ unresolvedInconsistencies s ≠ []) →
      publishAttempted (try_push s).1 = false) := by
  refine ⟨try_push_publish_necessary s hexcl, ?_⟩
  intro hviol
  cases hres : publishAttempted (try_push s).1 with
  | false => rfl
  | true =>
    exfalso
    obtain ⟨hLn, ⟨d, hgov, hall⟩, hQ, hI⟩ := try_push_publish_necessary s hexcl hres
    rcases hviol with h | ⟨d2, e, hgov2, he, hopen⟩ | h | h
    · exact h hLn
    · rw [hgov2] at hgov
      injection hgov with hd
      subst hd
      rw [hall e he] at hopen
      exact Bool.noConfusion hopen
    · exact h hQ
    · exact h hI

/-- C1 witness: a state carrying a lock is refused by the push gate. -/
theorem tryPush_strict_apply :
    publishAttempted (try_push { baseState with lock := some "stale" }).1 = false :=
  (tryPush_strict { baseState with lock := some "stale" } (Or.inl rfl)).2
    (Or.inl (by simp))

/-- C10: `try_push` consults only the fix/maintenance tree: whenever
that document is absent (whatever the new-initiative tree contains),
the push is blocked as checklist-incomplete, a lock with that reason is
created, and the publish phase is never entered. -/
theorem try_push_requires_fix_tree (s : SysState)
    (hL : s.lock = none) (hF : s.fixBootstrap = none) :
    (try_push s).1 = PushResult.blockedChecklist ∧
    publishAttempted (try_push s).1 = false ∧
    ((try_push s).2).lock = some "Checklist incomplete" := by
  have hCI : checklist_incomplete s = true := by
    unfold checklist_incomplete
    rw [hF]
  refine ⟨?_, ?_, ?_⟩ <;>
    simp [try_push, hL, hCI, publishAttempted, create_lock_file]

/-- C10 witness: with a fully checked new-initiative tree and no fix
tree, publication is still denied as checklist-incomplete. -/
theorem try_push_requires_fix_tree_apply :
    (try_push sNewDone).1 = PushResult.blockedChecklist ∧
    publishAttempted (try_push sNewDone).1 = false ∧
    ((try_push sNewDone).2).lock = some "Checklist incomplete" :=
  try_push_requires_fix_tree sNewDone rfl rfl

/-- C4 counterexample: a ledger holding two entries for one path with
different digests, whose file currently matches the most recently
logged digest: the specification's most-recent condition holds, yet
`verify_file_hashes` fails, because it compares every entry, not the
most recent one. -/
theorem verify_file_hashes_most_recent_cex :
    most_recent_hash_check hfC sLedger = true ∧
    verify_file_hashes hfC sLedger = false :=
  ⟨rfl, rfl⟩

/-- C4 amended: `verify_file_hashes` passes iff EVERY ledger entry
(superseded entries included) whose path still exists has the file's
current digest equal to that entry's logged digest; entries for missing
paths never count as failures. -/
theorem verify_file_hashes_every_entry (hf : Doc → String) (s : SysState) :
    verify_file_hashes hf s = true ↔
      ∀ p h, (p, h) ∈ s.hashLog → ∀ c, fileAt s p = some c → hf c = h := by
  unfold verify_file_hashes
  rw [List.all_eq_true]
  constructor
  · intro hAll p h hm c hc
    have h1 := hAll (p, h) hm
    replace h1 : (match fileAt s p with
        | none => true
        | some c => hf c == h) = true := h1
    rw [hc] at h1
    exact eq_of_beq h1
  · intro hP e he
    obtain ⟨p, h⟩ := e
    show (match fileAt s p with | none => true | some c => hf c == h) = true
    cases hc : fileAt s p with
    | none => rfl
    | some c => simp [hP p h he c hc]

/-- C9: recording the digest of an unchanged document twice preserves
ledger verification: if `verify_file_hashes` held before, it holds
after both appends. -/
theorem log_hash_idempotent (hf : Doc → String) (s : SysState) (p : String) (c : Doc)
    (s1 s2 : SysState)
    (hc : fileAt s p = some c)
    (hver : verify_file_hashes hf s = true)
    (h1 : log_file_hash hf p s = some s1)
    (h2 : log_file_hash hf p s1 = some s2) :
    verify_file_hashes hf s2 = true := by
  unfold log_file_hash at h1
  rw [hc] at h1
  replace h1 : some { s with hashLog := s.hashLog ++ [(p, hf c)] } = some s1 := h1
  injection h1 with h1
  subst h1
  have hc1 : fileAt { s with hashLog := s.hashLog ++ [(p, hf c)] } p = some c := hc
  unfold log_file_hash at h2
  rw [hc1] at h2
  replace h2 : some { s with hashLog := s.hashLog ++ [(p, hf c)] ++ [(p, hf c)] } = some s2 := h2
  injection h2 with h2
  subst h2
  unfold verify_file_hashes at hver ⊢
  have hfa : ∀ n, fileAt { s with hashLog := s.hashLog ++ [(p, hf c)] ++ [(p, hf c)] } n
      = fileAt s n := fun n => rfl
  simp only [hfa]
  rw [List.all_append, List.all_append]
  rw [hver]
  simp [List.all_cons, hc]

/-- C9 witness: logging the one document of a concrete state twice
leaves a ledger that verifies. -/
theorem log_hash_idempotent_apply :
    verify_file_hashes hfC { sOneFile with hashLog := [("p", "h2"), ("p", "h2")] } = true :=
  log_hash_idempotent hfC sOneFile "p" [DocLine.text "v"]
    { sOneFile with hashLog := [("p", "h2")] }
    { sOneFile with hashLog := [("p", "h2"), ("p", "h2")] }
    rfl rfl rfl rfl

lemma get_active_step_fst_char (hf : Doc → String) (s : SysState) (d sec : Doc)
    (hver : verify_file_hashes hf s = true)
    (hgov : governingBootstrap s = some d)
    (hsec : treeSection d = some sec) :
    (get_active_step hf s).1 =
      match (treeEntries sec).find? (fun e => !e.1) with
      | none => ActiveResult.done
      | some e => ActiveResult.active e.2 := by
  unfold get_active_step
  simp only [hver, hgov, hsec, if_true]
  cases hfind : (treeEntries sec).find? (fun e => !e.1) with
  | none => simp [hfind]
  | some e =>
    simp only [hfind]
    split <;> rfl

/-- C2: over the parsed ordered entries of the governing tree document,
`get_active_step` yields no step exactly when every entry is checked,
and otherwise yields the step at the lowest open index: it can never
return a later entry while an earlier one is open. -/
theorem get_active_step_lowest_open (hf : Doc → String) (s : SysState) (d sec : Doc)
    (hver : verify_file_hashes hf s = true)
    (hgov : governingBootstrap s = some d)
    (hsec : treeSection d = some sec) :
    ((get_active_step hf s).1 = ActiveResult.done ↔
      ∀ e ∈ treeEntries sec, e.1 = true) ∧
    (∀ (i : Nat) (hi : i < (treeEntries sec).length),
      ((treeEntries sec).get ⟨i, hi⟩).1 = false →
      (∀ j (hj : j < i), ((treeEntries sec).get ⟨j, Nat.lt_trans hj hi⟩).1 = true) →
      (get_active_step hf s).1 = ActiveResult.active ((treeEntries sec).get ⟨i, hi⟩).2) := by
  have hchar := get_active_step_fst_char hf s d sec hver hgov hsec
  constructor
  · rw [hchar]
    cases hfind : (treeEntries sec).find? (fun e => !e.1) with
    | none =>
      constructor
      · intro _
        exact (find?_open_none_iff _).mp hfind
      · intro _
        rfl
    | some e =>
      constructor
      · intro h
        exact absurd h (by simp)
      · intro hAll
        exfalso
        rw [(find?_open_none_iff _).mpr hAll] at hfind
        exact Option.noConfusion hfind
  · intro i hi hopen hbefore
    rw [hchar, find?_first_open (treeEntries sec) i hi hopen hbefore]

/-- C2 witness: in a two-entry tree with the first entry checked and
the second open, the resolved active step is the second entry. -/
theorem get_active_step_lowest_open_apply :
    (get_active_step hfC sTree).1 = ActiveResult.active "STEP_02__b.md" := by
  have h := (get_active_step_lowest_open hfC sTree fixTreeTwo
      [DocLine.checkbox true "STEP_01__a.md", DocLine.checkbox false "STEP_02__b.md"]
      rfl rfl rfl).2 1 (by decide) rfl
      (by
        intro j hj
        have hj0 : j = 0 := Nat.lt_one_iff.mp hj
        subst hj0
        rfl)
  exact h

/-- C3: for every step name that passes the active-step assertion and
the reference grammar, `verify_step` succeeds iff checkbox closure,
absence of open questions, completeness of every referenced child, and
the external-validation condition (no specification, or every declared
command exits zero) all hold; and the advisory uncommitted-changes
check never affects the result. -/
theorem verify_step_gate_iff (s : SysState) (name : String) (ds dsc r : List Char)
    (hcur : s.currentStep = some name)
    (hname : matchStepRef name.toList = some (ds, dsc, r)) :
    ((verify_step s name).1 = VerifyResult.ret true ↔
      all_checkboxes_checkedS s name = true ∧ no_pending_questionsS s name = true ∧
      (get_child_stepsS s name).all (fun c => is_step_completeS s c) = true ∧
      spec_validation_ok s.expected s.cmdExit (String.mk ds) = true) ∧
    (∀ b : Bool, (verify_step { s with gitDirty := b } name).1 = (verify_step s name).1) := by
  have hA : assert_current_file_is s name = true := by
    unfold assert_current_file_is
    rw [hcur]
    simp
  constructor
  · cases hD : fileAt s name with
    | none =>
      have hred : (verify_step s name).1 = VerifyResult.ret false := by
        rw [verify_step_fst_char, hA, Bool.cond_true, hD]
      rw [hred]
      constructor
      · intro h
        exact absurd h (by simp)
      · rintro ⟨h1, -⟩
        unfold all_checkboxes_checkedS at h1
        rw [hD] at h1
        exact absurd h1 (by simp)
    | some doc =>
      have hred : (verify_step s name).1 = VerifyResult.ret
          (all_checkboxes_checked doc && no_pending_questions doc
            && (firstBadChild s (get_child_steps doc)).isNone
            && (validate_expected_output s name).1) := by
        rw [verify_step_fst_char, hA, Bool.cond_true, hD]
      have e1 : all_checkboxes_checkedS s name = all_checkboxes_checked doc := by
        unfold all_checkboxes_checkedS
        rw [hD]
      have e2 : no_pending_questionsS s name = no_pending_questions doc := by
        unfold no_pending_questionsS
        rw [hD]
      have e3 : get_child_stepsS s name = get_child_steps doc := by
        unfold get_child_stepsS
        rw [hD]
      have e4 := validate_fst_of_name s name ds dsc r hname
      rw [hred, e1, e2, e3, ← e4]
      constructor
      · intro h
        have hb := VerifyResult.ret.inj h
        rw [Bool.and_eq_true, Bool.and_eq_true, Bool.and_eq_true] at hb
        obtain ⟨⟨⟨h1, h2⟩, h3⟩, h4⟩ := hb
        refine ⟨h1, h2, ?_, h4⟩
        exact List.all_eq_true.mpr
          ((firstBadChild_none_iff s _).mp (Option.isNone_iff_eq_none.mp h3))
      · rintro ⟨h1, h2, h3, h4⟩
        have hch : firstBadChild s (get_child_steps doc) = none :=
          (firstBadChild_none_iff s _).mpr (List.all_eq_true.mp h3)
        rw [h1, h2, hch, h4]
        rfl
  · intro b
    exact verify_fst_congr s { s with gitDirty := b } name rfl rfl rfl rfl

/-- C3 witness: a concrete current step satisfying all four gate
conditions verifies successfully. -/
theorem verify_step_gate_iff_apply :
    (verify_step sVerifyOk "STEP_01__x.md").1 = VerifyResult.ret true :=
  ((verify_step_gate_iff sVerifyOk "STEP_01__x.md" [ '0', '1' ] [ 'x' ] []
    rfl rfl).1).mpr ⟨rfl, rfl, rfl, rfl⟩

lemma verify_step_fail_cb (s : SysState) (name : String) (d : Doc)
    (hA : assert_current_file_is s name = true)
    (hd : fileAt s name = some d)
    (hcb : all_checkboxes_checked d = false) :
    verify_step s name =
      (VerifyResult.ret false, create_lock_file "Incomplete checklist items" s) := by
  unfold verify_step
  simp only [hA, hd, if_true]
  rw [hcb]
  rfl

lemma verify_step_fail_q (s : SysState) (name : String) (d : Doc)
    (hA : assert_current_file_is s name = true)
    (hd : fileAt s name = some d)
    (hcb : all_checkboxes_checked d = true)
    (hq : no_pending_questions d = false) :
    verify_step s name =
      (VerifyResult.ret false, create_lock_file "Pending questions in checklist" s) := by
  unfold verify_step
  simp only [hA, hd, hcb, if_true]
  rw [hq]
  rfl

lemma verify_step_fail_child (s : SysState) (name : String) (d : Doc) (cb : String × Bool)
    (hA : assert_current_file_is s name = true)
    (hd : fileAt s name = some d)
    (hcb : all_checkboxes_checked d = true)
    (hq : no_pending_questions d = true)
    (hch : firstBadChild s (get_child_steps d) = some cb) :
    verify_step s name =
      (VerifyResult.ret false, create_lock_file (childReason cb) s) := by
  unfold verify_step
  simp only [hA, hd, hcb, hq, hch, if_true]

lemma verify_step_fail_val (s : SysState) (name : String) (d : Doc)
    (hA : assert_current_file_is s name = true)
    (hd : fileAt s name = some d)
    (hcb : all_checkboxes_checked d = true)
    (hq : no_pending_questions d = true)
    (hch : firstBadChild s (get_child_steps d) = none)
    (hv : (validate_expected_output s name).1 = false) :
    verify_step s name =
      (VerifyResult.ret false,
        create_lock_file "Expected output validation failed"
          (validate_expected_output s name).2) := by
  have hv2 : validate_expected_output s name
      = (false, (validate_expected_output s name).2) := by
    cases hvv : validate_expected_output s name with
    | mk a b =>
      rw [hvv] at hv
      have ha : a = false := hv
      rw [ha]
  unfold verify_step
  simp only [hA, hd, hcb, hq, hch, if_true]
  rw [hv2]

/-- C5 counterexample: under the new-initiative tree (fix tree absent)
a step verifies successfully, yet the governing tree document is left
untouched: its entry for the step is still open, so only one of the two
claimed writes happened. -/
theorem verify_success_new_tree_cex :
    (verify_step sNewTree "STEP_01__x.md").1 = VerifyResult.ret true ∧
    ((verify_step sNewTree "STEP_01__x.md").2).newProjectBootstrap = some newTree ∧
    (false, "STEP_01__x.md") ∈ treeEntriesOf newTree ∧
    ((verify_step sNewTree "STEP_01__x.md").2).fixBootstrap = none := by
  refine ⟨rfl, rfl, ?_, rfl⟩
  show (false, "STEP_01__x.md") ∈ [((false : Bool), "STEP_01__x.md")]
  exact List.mem_singleton.mpr rfl

/-- C5 amended: whenever `verify_step` succeeds, the step document's
status marker is flipped to Complete, and, provided the fix/maintenance
tree document exists, its entry matching the exact reference string is
flipped from open to checked; when that document is absent (as under
the new-initiative tree) the tree write is skipped while the call still
reports success. -/
theorem verify_success_both_writes (s : SysState) (name : String) (d bd : Doc)
    (hd : fileAt s name = some d)
    (hfix : s.fixBootstrap = some bd)
    (hres : (verify_step s name).1 = VerifyResult.ret true) :
    fileAt (verify_step s name).2 name = some (d.map flipStatus) ∧
    ((verify_step s name).2).fixBootstrap = some (bd.map (checkTreeEntry name)) := by
  have hmark : mark_step_complete s name =
      { setFile name (d.map flipStatus) s with
        fixBootstrap := some (bd.map (checkTreeEntry name)) } := by
    unfold mark_step_complete
    rw [hd]
    show (match (setFile name (d.map flipStatus) s).fixBootstrap with
        | none => setFile name (d.map flipStatus) s
        | some bd2 =>
          { setFile name (d.map flipStatus) s with
            fixBootstrap := some (bd2.map (checkTreeEntry name)) }) =
      { setFile name (d.map flipStatus) s with
        fixBootstrap := some (bd.map (checkTreeEntry name)) }
    rw [show (setFile name (d.map flipStatus) s).fixBootstrap = some bd from hfix]
  rw [verify_step_true_snd s name hres, hmark]
  constructor
  · show fileAt (setFile name (d.map flipStatus) s) name = some (d.map flipStatus)
    exact fileAt_setFile_self name (d.map flipStatus) s
  · rfl

/-- C5 witness: with the fix tree present, a successful verification
flips both the step document's status and the tree entry. -/
theorem verify_success_both_writes_apply :
    fileAt (verify_step sFixTree "STEP_01__x.md").2 "STEP_01__x.md"
      = some (stepDone.map flipStatus) ∧
    ((verify_step sFixTree "STEP_01__x.md").2).fixBootstrap
      = some (fixTreeX.map (checkTreeEntry "STEP_01__x.md")) :=
  verify_success_both_writes sFixTree "STEP_01__x.md" stepDone fixTreeX rfl rfl rfl

/-- C6 counterexample: with the LockMarker present, `verify_step` on
the current step proceeds, completes the step, and removes the lock —
the system completes a step while locked. -/
theorem verify_completes_while_locked_cex :
    sLocked.lock = some "stale failure" ∧
    (verify_step sLocked "STEP_01__x.md").1 = VerifyResult.ret true ∧
    ((verify_step sLocked "STEP_01__x.md").2).lock = none :=
  ⟨rfl, rfl, rfl⟩

/-- C6 amended: while the LockMarker exists, `assert_not_locked`
refuses (so every operation that begins with it is blocked), but
`verify_step` never consults the lock: its outcome is the same as in
the unlocked state, and on success it removes the lock, so a step can
complete while locked. -/
theorem lock_ignored_by_verify (s : SysState) (r : String) (name : String)
    (h : s.lock = some r) :
    assert_not_locked s = false ∧
    (verify_step s name).1 = (verify_step { s with lock := none } name).1 ∧
    ((verify_step s name).1 = VerifyResult.ret true →
      ((verify_step s name).2).lock = none) := by
  refine ⟨?_, ?_, ?_⟩
  · unfold assert_not_locked
    rw [h]
    rfl
  · exact (verify_fst_congr s { s with lock := none } name rfl rfl rfl rfl).symm
  · intro hres
    rw [verify_step_true_snd s name hres]
    rfl

/-- C6 witness: the amended behaviour at the concrete locked state. -/
theorem lock_ignored_by_verify_apply :
    assert_not_locked sLocked = false ∧
    (verify_step sLocked "STEP_01__x.md").1
      = (verify_step { sLocked with lock := none } "STEP_01__x.md").1 ∧
    ((verify_step sLocked "STEP_01__x.md").1 = VerifyResult.ret true →
      ((verify_step sLocked "STEP_01__x.md").2).lock = none) :=
  lock_ignored_by_verify sLocked "stale failure" "STEP_01__x.md" rfl

/-- C7 counterexample: when the current step's document does not exist,
`verify_step` returns false to the caller but creates no lock — a
failure of verify that leaves the system unlocked. -/
theorem verify_missing_file_no_lock_cex :
    (verify_step sMissing "STEP_01__x.md").1 = VerifyResult.ret false ∧
    ((verify_step sMissing "STEP_01__x.md").2).lock = none :=
  ⟨rfl, rfl⟩

/-- C7 amended: for every failing blocking gate of `verify_step` on an
existing step document (checkbox closure, open questions, child
completeness, output validation), the call returns false and leaves the
LockMarker present with a diagnostic reason, making `assert_not_locked`
refuse; only the step-document-existence failure returns false without
locking. -/
theorem verify_gate_failure_locks (s : SysState) (name : String) (d : Doc)
    (hd : fileAt s name = some d)
    (hres : (verify_step s name).1 = VerifyResult.ret false) :
    ∃ r, ((verify_step s name).2).lock = some r ∧
      assert_not_locked ((verify_step s name).2) = false := by
  have hA : assert_current_file_is s name = true := by
    cases hA0 : assert_current_file_is s name
    · rw [verify_step_fst_char, hA0, Bool.cond_false] at hres
      exact absurd hres (by simp)
    · rfl
  cases hcb : all_checkboxes_checked d
  · rw [verify_step_fail_cb s name d hA hd hcb]
    exact ⟨"Incomplete checklist items", rfl, rfl⟩
  · cases hq : no_pending_questions d
    · rw [verify_step_fail_q s name d hA hd hcb hq]
      exact ⟨"Pending questions in checklist", rfl, rfl⟩
    · cases hch : firstBadChild s (get_child_steps d) with
      | some cb =>
        rw [verify_step_fail_child s name d cb hA hd hcb hq hch]
        exact ⟨childReason cb, rfl, rfl⟩
      | none =>
        cases hv : (validate_expected_output s name).1
        · rw [verify_step_fail_val s name d hA hd hcb hq hch hv]
          exact ⟨"Expected output validation failed", rfl, rfl⟩
        · rw [verify_step_success s name d hA hd hcb hq hch hv] at hres
          exact absurd hres (by simp)

/-- C7 witness: a current step with an open checkbox fails verify and
leaves a lock behind. -/
theorem verify_gate_failure_locks_apply :
    ∃ r, ((verify_step sBadBox "STEP_01__x.md").2).lock = some r ∧
      assert_not_locked ((verify_step sBadBox "STEP_01__x.md").2) = false :=
  verify_gate_failure_locks sBadBox "STEP_01__x.md"
    [DocLine.statusOpen, DocLine.checkbox false "undone"] rfl rfl

lemma firstBadChild_of_unique (s : SysState) (c : String) (cs : List String)
    (hc : c ∈ cs) (hmiss : fileAt s c = none)
    (hothers : ∀ x ∈ cs, x ≠ c → is_step_completeS s x = true) :
    firstBadChild s cs = some (c, true) := by
  induction cs with
  | nil => cases hc
  | cons x cs ih =>
    by_cases hxc : x = c
    · subst hxc
      rw [firstBadChild_cons]
      have hbad : is_step_completeS s x = false := by
        unfold is_step_completeS
        rw [hmiss]
      rw [hbad, Bool.cond_false, hmiss]
      rfl
    · have hxok : is_step_completeS s x = true :=
        hothers x (List.mem_cons_self x cs) hxc
      rw [firstBadChild_cons, hxok, Bool.cond_true]
      apply ih
      · rcases List.mem_cons.mp hc with rfl | h
        · exact absurd rfl hxc
        · exact h
      · intro x2 h2 hne
        exact hothers x2 (List.mem_cons_of_mem _ h2) hne

/-- C8: the child gate of `verify_step` treats exactly the links whose
label and target coincide and match the child-reference grammar as
child cross-references; the first missing or incomplete child makes
verify fail and locks with a reason naming that child; when every child
is complete (and validation passes) verify succeeds; and for a step
whose only blocking child is missing, verify fails, while creating that
child with a Complete status marker makes a subsequent verify pass. -/
theorem child_gate_behavior (s : SysState) (name : String) (d : Doc)
    (hcur : s.currentStep = some name)
    (hd : fileAt s name = some d)
    (hcb : all_checkboxes_checked d = true)
    (hq : no_pending_questions d = true) :
    (∀ lab tgt, DocLine.childLink lab tgt ∈ d → lab = tgt → childRefOk lab = true →
      lab ∈ get_child_steps d) ∧
    (∀ pre c post, get_child_steps d = pre ++ c :: post →
      (∀ x ∈ pre, is_step_completeS s x = true) → is_step_completeS s c = false →
      (verify_step s name).1 = VerifyResult.ret false ∧
      ((verify_step s name).2).lock = some (childReason (c, (fileAt s c).isNone))) ∧
    ((∀ c ∈ get_child_steps d, is_step_completeS s c = true) →
      (validate_expected_output s name).1 = true →
      (verify_step s name).1 = VerifyResult.ret true) ∧
    (∀ c cdoc, c ∈ get_child_steps d → fileAt s c = none →
      (∀ x ∈ get_child_steps d, x ≠ c → is_step_completeS s x = true) →
      doc_is_complete cdoc = true →
      (validate_expected_output (setFile c cdoc s) name).1 = true →
      (verify_step s name).1 = VerifyResult.ret false ∧
      (verify_step (setFile c cdoc s) name).1 = VerifyResult.ret true) := by
  have hA : assert_current_file_is s name = true := by
    unfold assert_current_file_is
    rw [hcur]
    simp
  refine ⟨?_, ?_, ?_, ?_⟩
  · intro lab tgt hmem heq hok
    subst heq
    unfold get_child_steps
    apply List.mem_filterMap.mpr
    refine ⟨DocLine.childLink lab lab, hmem, ?_⟩
    simp [hok]
  · intro pre c post hsplit hpre hbad
    have hch : firstBadChild s (get_child_steps d) = some (c, (fileAt s c).isNone) := by
      rw [hsplit]
      exact firstBadChild_first s pre c post hpre hbad
    constructor
    · rw [verify_step_fail_child s name d _ hA hd hcb hq hch]
    · rw [verify_step_fail_child s name d _ hA hd hcb hq hch]
      rfl
  · intro hall hv
    have hch : firstBadChild s (get_child_steps d) = none :=
      (firstBadChild_none_iff _ _).mpr hall
    rw [verify_step_success s name d hA hd hcb hq hch hv]
  · intro c cdoc hmemc hmiss hothers hcdoc hv2
    have hbad : is_step_completeS s c = false := by
      unfold is_step_completeS
      rw [hmiss]
    have hfirst : firstBadChild s (get_child_steps d) = some (c, true) :=
      firstBadChild_of_unique s c (get_child_steps d) hmemc hmiss hothers
    have hcn : name ≠ c := by
      intro he
      rw [he] at hd
      rw [hd] at hmiss
      exact Option.noConfusion hmiss
    have hcur2 : assert_current_file_is (setFile c cdoc s) name = true := hA
    have hd2 : fileAt (setFile c cdoc s) name = some d := by
      rw [fileAt_setFile_ne c cdoc s name hcn]
      exact hd
    have hch2 : firstBadChild (setFile c cdoc s) (get_child_steps d) = none := by
      apply (firstBadChild_none_iff _ _).mpr
      intro x hx
      by_cases hxc : x = c
      · subst hxc
        unfold is_step_completeS
        rw [fileAt_setFile_self]
        exact hcdoc
      · unfold is_step_completeS
        rw [fileAt_setFile_ne c cdoc s x hxc]
        exact hothers x hx hxc
    constructor
    · rw [verify_step_fail_child s name d _ hA hd hcb hq hfirst]
    · rw [verify_step_success (setFile c cdoc s) name d hcur2 hd2 hcb hq hch2 hv2]

/-- C8 witness: the scenario of the specification — a parent whose
child `STEP_01A__X.md` is missing fails verify, and creating that child
with a Complete status makes the parent verify. -/
theorem child_gate_behavior_apply :
    (verify_step sParent "STEP_01__p.md").1 = VerifyResult.ret false ∧
    (verify_step (setFile "STEP_01A__X.md" childDone sParent) "STEP_01__p.md").1
      = VerifyResult.ret true :=
  (child_gate_behavior sParent "STEP_01__p.md" parentDoc rfl rfl rfl rfl).2.2.2
    "STEP_01A__X.md" childDone
    (List.mem_singleton.mpr rfl)
    rfl
    (by
      intro x hx hne
      exact absurd (List.mem_singleton.mp hx) hne)
    rfl rfl

end Checklists
